import Mathlib

/-!
A shallow embedding of the CEO-VoiceNotes request-orchestration pipeline.

Server side (src/server/index.js): the multer upload stage guarding
`POST /api/transcribe`, the transcribe handler itself (OpenAI transcription
call, N8N webhook relay, SQLite insert, artifact cleanup), and the
`GET /api/conversations` read path.

Client side (frontend code quoted in the README): `stripMarkdown` and the
`n8n_response` display transform of `loadConversationHistory`.

External collaborators (the JSON parser/serializer of the host language,
multer's documented file-handling semantics, SQLite's ORDER BY) are modelled
at their interface boundary.
-/

namespace VoiceNotes

/-- JSON values as produced by the host JSON parser.  Number tokens keep
their source text: the pipeline never does numeric arithmetic, it only
tests truthiness (zero-ness) of a number. -/
inductive Json where
  | null
  | bool (b : Bool)
  | num (raw : String)
  | str (s : String)
  | arr (elems : List Json)
  | obj (fields : List (String × Json))

mutual

/-- Node count of a JSON value; used as fuel for the serializers. -/
def jsonSize : Json → Nat
  | .null | .bool _ | .num _ | .str _ => 1
  | .arr elems => 1 + jsonSizeList elems
  | .obj fields => 1 + jsonSizeFields fields

/-- Total size of the values in a JSON array. -/
def jsonSizeList : List Json → Nat
  | [] => 0
  | j :: rest => jsonSize j + jsonSizeList rest

/-- Total size of the values in a JSON object. -/
def jsonSizeFields : List (String × Json) → Nat
  | [] => 0
  | kv :: rest => jsonSize kv.2 + jsonSizeFields rest

end

/-- JSON insignificant whitespace. -/
def isJsonWs (c : Char) : Bool :=
  c = ' ' || c = '\t' || c = '\n' || c = '\r'

/-- Drop leading JSON whitespace. -/
def skipWs : List Char → List Char
  | [] => []
  | c :: rest => if isJsonWs c then skipWs rest else c :: rest

/-- Value of a hexadecimal digit. -/
def hexVal (c : Char) : Option Nat :=
  if '0' ≤ c ∧ c ≤ '9' then some (c.toNat - '0'.toNat)
  else if 'a' ≤ c ∧ c ≤ 'f' then some (c.toNat - 'a'.toNat + 10)
  else if 'A' ≤ c ∧ c ≤ 'F' then some (c.toNat - 'A'.toNat + 10)
  else none

/-- Body of a JSON string literal, after the opening quote.  Handles the
JSON escape sequences; an unescaped control character or a dangling escape
is a parse failure, mirroring `JSON.parse`. -/
def parseStringBody (acc : List Char) : List Char → Option (String × List Char)
  | [] => none
  | '"' :: rest => some (String.mk acc.reverse, rest)
  | '\\' :: '"' :: rest => parseStringBody ('"' :: acc) rest
  | '\\' :: '\\' :: rest => parseStringBody ('\\' :: acc) rest
  | '\\' :: '/' :: rest => parseStringBody ('/' :: acc) rest
  | '\\' :: 'b' :: rest => parseStringBody ('\x08' :: acc) rest
  | '\\' :: 'f' :: rest => parseStringBody ('\x0c' :: acc) rest
  | '\\' :: 'n' :: rest => parseStringBody ('\n' :: acc) rest
  | '\\' :: 'r' :: rest => parseStringBody ('\r' :: acc) rest
  | '\\' :: 't' :: rest => parseStringBody ('\t' :: acc) rest
  | '\\' :: 'u' :: h1 :: h2 :: h3 :: h4 :: rest =>
      match hexVal h1, hexVal h2, hexVal h3, hexVal h4 with
      | some a, some b, some c, some d =>
          parseStringBody (Char.ofNat (((a * 16 + b) * 16 + c) * 16 + d) :: acc) rest
      | _, _, _, _ => none
  | '\\' :: _ :: _ => none
  | c :: rest => if c.toNat < 32 then none else parseStringBody (c :: acc) rest

/-- ASCII decimal digit test. -/
def isDigit (c : Char) : Bool := '0' ≤ c && c ≤ '9'

/-- Optional exponent part of a JSON number; returns the consumed token
characters (empty when no well-formed exponent follows) and the rest. -/
def parseExpPart (l : List Char) : List Char × List Char :=
  match l with
  | [] => ([], [])
  | c :: rest =>
    if c = 'e' || c = 'E' then
      let (sgn, rr) :=
        match rest with
        | '+' :: t => ((['+'] : List Char), t)
        | '-' :: t => ((['-'] : List Char), t)
        | _ => (([] : List Char), rest)
      let p := rr.span isDigit
      if p.1.isEmpty then ([], l) else (c :: (sgn ++ p.1), p.2)
    else ([], l)

/-- A JSON number token: optional sign, integer part without leading
zeros, optional fraction, optional exponent.  The raw token text is kept. -/
def parseNumber (l : List Char) : Option (String × List Char) :=
  let (sign, l1) :=
    match l with
    | '-' :: rest => ((['-'] : List Char), rest)
    | _ => (([] : List Char), l)
  let (intD, r1) := l1.span isDigit
  if intD.isEmpty then none
  else if 1 < intD.length && intD.head? = some '0' then none
  else
    let (fracD, r2) :=
      match r1 with
      | '.' :: r =>
        let p := r.span isDigit
        if p.1.isEmpty then (([] : List Char), r1) else ('.' :: p.1, p.2)
      | _ => (([] : List Char), r1)
    let (expD, r3) := parseExpPart r2
    some (String.mk (sign ++ intD ++ fracD ++ expD), r3)

mutual

/-- Recursive-descent JSON value parser, fueled; one unit of fuel is spent
per nesting step, and the wrapper passes more fuel than the input length,
so fuel never runs out on real input. -/
def parseValue : Nat → List Char → Option (Json × List Char)
  | 0, _ => none
  | fuel + 1, l =>
    match skipWs l with
    | '\x7b' :: rest =>
      match skipWs rest with
      | '\x7d' :: r2 => some (Json.obj [], r2)
      | r2 => parseMembers fuel r2 []
    | '[' :: rest =>
      match skipWs rest with
      | ']' :: r2 => some (Json.arr [], r2)
      | r2 => parseElements fuel r2 []
    | '"' :: rest => (parseStringBody [] rest).map (fun p => (Json.str p.1, p.2))
    | 't' :: 'r' :: 'u' :: 'e' :: rest => some (Json.bool true, rest)
    | 'f' :: 'a' :: 'l' :: 's' :: 'e' :: rest => some (Json.bool false, rest)
    | 'n' :: 'u' :: 'l' :: 'l' :: rest => some (Json.null, rest)
    | rest => (parseNumber rest).map (fun p => (Json.num p.1, p.2))

/-- Members of a JSON object, positioned at a key (after `{` and any
whitespace, when the object is not empty). -/
def parseMembers : Nat → List Char → List (String × Json) → Option (Json × List Char)
  | 0, _, _ => none
  | fuel + 1, l, acc =>
    match skipWs l with
    | '"' :: rest =>
      match parseStringBody [] rest with
      | none => none
      | some (key, r1) =>
        match skipWs r1 with
        | ':' :: r2 =>
          match parseValue fuel r2 with
          | none => none
          | some (v, r3) =>
            match skipWs r3 with
            | ',' :: r4 => parseMembers fuel r4 ((key, v) :: acc)
            | '\x7d' :: r4 => some (Json.obj ((key, v) :: acc).reverse, r4)
            | _ => none
        | _ => none
    | _ => none

/-- Elements of a JSON array, positioned at a value. -/
def parseElements : Nat → List Char → List Json → Option (Json × List Char)
  | 0, _, _ => none
  | fuel + 1, l, acc =>
    match parseValue fuel l with
    | none => none
    | some (v, r1) =>
      match skipWs r1 with
      | ',' :: r2 => parseElements fuel r2 (v :: acc)
      | ']' :: r2 => some (Json.arr (v :: acc).reverse, r2)
      | _ => none

end

/-- `JSON.parse`: parse one JSON value, allowing surrounding whitespace and
nothing else; any leftover input is a parse failure (a thrown exception in
the host language, modelled as `none`). -/
def jsonParse (s : String) : Option Json :=
  match parseValue (s.data.length + 1) s.data with
  | some (j, rest) => if skipWs rest = [] then some j else none
  | none => none

/-- Property lookup `obj.key` on a parsed JSON value: `none` models the
host language's `undefined` (missing field, or access on a non-object).
With duplicate keys the last occurrence wins, as in `JSON.parse`. -/
def jsonField (j : Json) (key : String) : Option Json :=
  match j with
  | Json.obj fields =>
      fields.foldl (fun acc kv => if kv.1 = key then some kv.2 else acc) none
  | _ => none

/-- Lower-case hex digit for an escape sequence. -/
def hexDigitChar (n : Nat) : Char :=
  if n < 10 then Char.ofNat ('0'.toNat + n) else Char.ofNat ('a'.toNat + n - 10)

/-- `JSON.stringify` escaping of one character inside a string literal. -/
def escapeJsonChar (c : Char) : List Char :=
  if c = '"' then ['\\', '"']
  else if c = '\\' then ['\\', '\\']
  else if c = '\n' then ['\\', 'n']
  else if c = '\r' then ['\\', 'r']
  else if c = '\t' then ['\\', 't']
  else if c = '\x08' then ['\\', 'b']
  else if c = '\x0c' then ['\\', 'f']
  else if c.toNat < 32 then
    ['\\', 'u', '0', '0', hexDigitChar (c.toNat / 16), hexDigitChar (c.toNat % 16)]
  else [c]

/-- A JSON string literal for `s`. -/
def quoteString (s : String) : String :=
  String.mk ('"' :: (s.data.map escapeJsonChar).flatten ++ ['"'])

/-- Compact `JSON.stringify`, fueled on term depth; the wrapper feeds it
`jsonSize`, which dominates the depth, so fuel never runs out. -/
def stringifyF : Nat → Json → String
  | 0, _ => ""
  | fuel + 1, j =>
    match j with
    | Json.null => "null"
    | Json.bool true => "true"
    | Json.bool false => "false"
    | Json.num raw => raw
    | Json.str s => quoteString s
    | Json.arr elems =>
        "[" ++ String.intercalate "," (elems.map (stringifyF fuel)) ++ "]"
    | Json.obj fields =>
        "\x7b" ++
          String.intercalate ","
            (fields.map (fun kv => quoteString kv.1 ++ ":" ++ stringifyF fuel kv.2)) ++
        "\x7d"

/-- `JSON.stringify(x)` (no indentation), as used to serialize the webhook
payload and the stored `n8n_response` column. -/
def stringify (j : Json) : String := stringifyF (jsonSize j) j

/-- `n` two-space indentation steps. -/
def indentSpaces (n : Nat) : String := String.mk (List.replicate (2 * n) ' ')

/-- `JSON.stringify(x, null, 2)`, fueled like `stringifyF`; `ind` is the
current nesting depth. -/
def stringifyPrettyF : Nat → Nat → Json → String
  | 0, _, _ => ""
  | fuel + 1, ind, j =>
    match j with
    | Json.arr [] => "[]"
    | Json.obj [] => "\x7b\x7d"
    | Json.arr elems =>
        "[\n" ++
          String.intercalate ",\n"
            (elems.map (fun e => indentSpaces (ind + 1) ++ stringifyPrettyF fuel (ind + 1) e)) ++
        "\n" ++ indentSpaces ind ++ "]"
    | Json.obj fields =>
        "\x7b\n" ++
          String.intercalate ",\n"
            (fields.map (fun kv =>
              indentSpaces (ind + 1) ++ quoteString kv.1 ++ ": " ++
                stringifyPrettyF fuel (ind + 1) kv.2)) ++
        "\n" ++ indentSpaces ind ++ "\x7d"
    | other => stringifyF (fuel + 1) other

/-- `JSON.stringify(x, null, 2)` as used by the history renderer. -/
def stringifyPretty (j : Json) : String := stringifyPrettyF (jsonSize j) 0 j

/-! ### The frontend `stripMarkdown` transform

`stripMarkdown` is a chain of six JS string operations:
`.replace(/[*_~`>#-]/g, '')`, then the link pattern, then the image
pattern, then literal `\n` / `\r` unescaping, then `.trim()`.
Each stage is modelled on character lists, in source order. -/

/-- The characters of the first `replace`'s character class. -/
def markdownMarkers : List Char := ['*', '_', '~', '\x60', '>', '#', '-']

/-- `.replace(/[*_~`>#-]/g, '')`: drop every occurrence of the class. -/
def removeMarkers (l : List Char) : List Char :=
  l.filter (fun c => ¬ markdownMarkers.contains c)

/-- First `)` at or after the head, as the lazy `.*?\)` finds it; `.`
does not match a newline, so a newline before the `)` fails the match. -/
def urlEnd : List Char → Option (List Char)
  | [] => none
  | ')' :: rest => some rest
  | c :: rest => if c = '\n' then none else urlEnd rest

/-- Matcher for the regex tail `(.*?)\]\(.*?\)` (everything after the
opening `[`), with the JS engine's backtracking: the lazy `(.*?)` stops at
the first `](` whose url part closes with `)`, and extends past a `](`
whose url part never closes.  Returns the captured text and the input
after the closing `)`.  Fueled; one unit per consumed character. -/
def matchLinkTail : Nat → List Char → Option (List Char × List Char)
  | 0, _ => none
  | _ + 1, [] => none
  | fuel + 1, ']' :: '(' :: rest =>
    match urlEnd rest with
    | some r => some ([], r)
    | none => (matchLinkTail fuel ('(' :: rest)).map (fun p => (']' :: p.1, p.2))
  | fuel + 1, c :: rest =>
    if c = '\n' then none
    else (matchLinkTail fuel rest).map (fun p => (c :: p.1, p.2))

/-- `.replace(/\[(.*?)\]\(.*?\)/g, '$1')`: left-to-right scan; a match is
replaced by its captured text, which is not rescanned.  Fueled. -/
def replaceLinksF : Nat → List Char → List Char
  | 0, l => l
  | _ + 1, [] => []
  | fuel + 1, '[' :: rest =>
    match matchLinkTail (rest.length + 1) rest with
    | some (t, r) => t ++ replaceLinksF fuel r
    | none => '[' :: replaceLinksF fuel rest
  | fuel + 1, c :: rest => c :: replaceLinksF fuel rest

/-- The link-replace stage on a whole character list. -/
def replaceLinks (l : List Char) : List Char := replaceLinksF (l.length + 1) l

/-- `.replace(/!\[(.*?)\]\(.*?\)/g, '$1')`: like the link stage but the
pattern starts with `![`.  Fueled. -/
def replaceImagesF : Nat → List Char → List Char
  | 0, l => l
  | _ + 1, [] => []
  | fuel + 1, '!' :: '[' :: rest =>
    match matchLinkTail (rest.length + 1) rest with
    | some (t, r) => t ++ replaceImagesF fuel r
    | none => '!' :: replaceImagesF fuel ('[' :: rest)
  | fuel + 1, c :: rest => c :: replaceImagesF fuel rest

/-- The image-replace stage on a whole character list. -/
def replaceImages (l : List Char) : List Char := replaceImagesF (l.length + 1) l

/-- `.replace(/\\n/g, '\n')`: each literal backslash-n pair becomes a
newline character. -/
def replaceEscN : List Char → List Char
  | '\\' :: 'n' :: rest => '\n' :: replaceEscN rest
  | c :: rest => c :: replaceEscN rest
  | [] => []

/-- `.replace(/\\r/g, '')`: each literal backslash-r pair is dropped. -/
def removeEscR : List Char → List Char
  | '\\' :: 'r' :: rest => removeEscR rest
  | c :: rest => c :: removeEscR rest
  | [] => []

/-- The code points `String.prototype.trim` removes (WhiteSpace and
LineTerminator of the JS spec). -/
def jsWhitespaceCodes : List Nat :=
  [0x9, 0xa, 0xb, 0xc, 0xd, 0x20, 0xa0, 0x1680, 0x2000, 0x2001, 0x2002,
   0x2003, 0x2004, 0x2005, 0x2006, 0x2007, 0x2008, 0x2009, 0x200a, 0x2028,
   0x2029, 0x202f, 0x205f, 0x3000, 0xfeff]

/-- Whether `.trim()` strips this character. -/
def isJsTrimWs (c : Char) : Bool := jsWhitespaceCodes.contains c.toNat

/-- `.trim()`: drop leading and trailing JS whitespace. -/
def trimList (l : List Char) : List Char :=
  ((l.dropWhile isJsTrimWs).reverse.dropWhile isJsTrimWs).reverse

/-- The frontend `stripMarkdown`, stage for stage in source order. -/
def stripMarkdown (md : String) : String :=
  String.mk
    (trimList (removeEscR (replaceEscN
      (replaceImages (replaceLinks (removeMarkers md.data))))))

/-! ### The history display transform

`loadConversationHistory` renders each row's `n8n_response` inside a
`try`: `JSON.parse` it, and when the parsed value's `output` property is
truthy apply `stripMarkdown` to it, otherwise pretty-print the parsed
value; any exception thrown inside falls back to the raw stored string. -/

/-- Exceptions the `try` body can throw: `JSON.parse` on invalid input,
property access on `null`, and `.replace` (inside `stripMarkdown`) on a
value that is not a string. -/
inductive JsError where
  | parseError
  | typeError
deriving DecidableEq

/-- Whether a JSON number token denotes zero: every digit of its mantissa
is `0` (an exponent cannot make a zero mantissa nonzero). -/
def numTokenIsZero (raw : String) : Bool :=
  (raw.data.takeWhile (fun c => c ≠ 'e' ∧ c ≠ 'E')).all
    (fun c => !isDigit c || c = '0')

/-- JS truthiness of a parsed JSON value. -/
def jsTruthy : Json → Bool
  | .null => false
  | .bool b => b
  | .num raw => !numTokenIsZero raw
  | .str s => s != ""
  | .arr _ => true
  | .obj _ => true

/-- The body of the renderer's `try` block for one stored `n8n_response`
value: parse, test `n8nObj.output` for truthiness, then either strip
Markdown from it or pretty-print the whole value.  Exceptions are modelled
as `Except.error`: invalid JSON, `.output` on `null`, and `stripMarkdown`
applied to a truthy non-string. -/
def renderN8nTextE (stored : String) : Except JsError String :=
  match jsonParse stored with
  | none => Except.error JsError.parseError
  | some Json.null => Except.error JsError.typeError
  | some j =>
    match jsonField j "output" with
    | some v =>
      if jsTruthy v then
        match v with
        | Json.str s => Except.ok (stripMarkdown s)
        | _ => Except.error JsError.typeError
      else Except.ok (stringifyPretty j)
    | none => Except.ok (stringifyPretty j)

/-- The display text of one history row's counterpart bubble: the `try`
body's result, with the `catch` falling back to the raw stored string. -/
def n8nDisplay (stored : String) : String :=
  match renderN8nTextE stored with
  | Except.ok t => t
  | Except.error _ => stored

/-! ### The server: `POST /api/transcribe`

The handler is mounted behind `upload.single('audio')` (multer with
`diskStorage`, a 10 MiB `fileSize` limit, and a `fileFilter` accepting
MIME types starting with `audio/`).  The handler body transcribes the
stored file with OpenAI, POSTs the transcript to the N8N webhook, treats a
non-ok webhook status or an unparsable webhook body as a thrown error,
inserts a row (insert errors only logged in the callback), deletes the
uploaded file, and responds; the catch block deletes the file if it still
exists and responds 500. -/

/-- The incoming multipart `audio` file as multer sees it: the original
name's extension, the declared MIME type, and the payload size. -/
structure IncomingFile where
  originalExt : String
  mimetype : String
  size : Nat
deriving DecidableEq

/-- `fileSize: 10 * 1024 * 1024` from the multer `limits`. -/
def fileSizeLimit : Nat := 10 * 1024 * 1024

/-- The multer `fileFilter` from the source: accept exactly when the
declared MIME type starts with `audio/` (the JS
`file.mimetype.startsWith('audio/')`, stated on the character lists). -/
def fileFilterAccept (mimetype : String) : Bool :=
  "audio/".data.isPrefixOf mimetype.data

/-- The `diskStorage` filename: `recording-` + `Date.now()` + original
extension, in the uploads directory. -/
def recordingPath (nowMs : Nat) (ext : String) : String :=
  "uploads/recording-" ++ toString nowMs ++ ext

/-- One row as the transcribe handler inserts it (the `id` is assigned by
SQLite). -/
structure InsertRow where
  timestamp : String
  transcript : String
  n8n_response : String
deriving DecidableEq

/-- Externally observable side effects of one `/api/transcribe` request,
in order: artifact file creation and deletion, the OpenAI transcription
call, the webhook POST (with its serialized body), and the attempted
ledger insert. -/
inductive Event where
  | fileCreate (path : String)
  | fileUnlink (path : String)
  | providerCall (path : String)
  | webhookCall (payload : String)
  | dbInsert (row : InsertRow)
deriving DecidableEq

/-- The JSON body a route sends back: the handler's success object
`{ transcript, n8nResponse }` or an `{ error }` object. -/
inductive RespBody where
  | success (transcript : String) (n8nResponse : Json)
  | jsonError (error : String)

/-- An HTTP response: status code plus JSON body. -/
structure HttpResponse where
  status : Nat
  body : RespBody

/-- Everything one request is resolved against: the clock readings, the
deployment mode, and the outcomes of the external collaborators
(transcription provider, webhook, SQLite insert). -/
structure ReqEnv where
  nowMs : Nat
  nowIso : String
  isProduction : Bool
  transcription : Except String String
  webhookOk : Bool
  webhookStatusText : String
  webhookJson : Except String Json
  insertOk : Bool

/-- The outcome of one request: the response sent, the side-effect trace,
and the rows that actually reached the ledger. -/
structure ReqResult where
  resp : HttpResponse
  events : List Event
  rowsWritten : List InsertRow

/-- What the multer stage hands to the route: nothing (`req.file` is
undefined), a stored file, or an error that skips the route and lands in
the express error middleware. -/
inductive MulterOutcome where
  | noFile
  | stored (path : String) (mimetype : String)
  | rejected (errMsg : String)

/-- The `upload.single('audio')` stage, per multer's documented semantics:
with no `audio` field the route runs with `req.file` undefined; otherwise
`fileFilter` runs first, before anything is written to disk, and a
filtered-out file aborts with the filter's error; an accepted file whose
payload exceeds the `fileSize` limit aborts with `LIMIT_FILE_SIZE`
("File too large"), multer removing anything it partially wrote; an
accepted file within the limit is persisted under the `diskStorage`
name. -/
def multerSingleAudio (nowMs : Nat) : Option IncomingFile → MulterOutcome
  | none => MulterOutcome.noFile
  | some f =>
    if ¬ fileFilterAccept f.mimetype then
      MulterOutcome.rejected "Only audio files are allowed!"
    else if fileSizeLimit < f.size then
      MulterOutcome.rejected "File too large"
    else
      MulterOutcome.stored (recordingPath nowMs f.originalExt) f.mimetype

/-- The express error middleware: a 500 JSON response, generic message in
production, the error's message otherwise. -/
def errorMiddlewareResp (isProduction : Bool) (msg : String) : HttpResponse :=
  HttpResponse.mk 500
    (RespBody.jsonError (if isProduction then "Internal server error" else msg))

/-- The handler's catch block response: 500, generic "Error processing
audio" in production, the error's message otherwise. -/
def catchResp (isProduction : Bool) (msg : String) : HttpResponse :=
  HttpResponse.mk 500
    (RespBody.jsonError (if isProduction then "Error processing audio" else msg))

/-- The `POST /api/transcribe` handler body, given what multer put in
`req.file`.  Follows the source line by line: 400 when `req.file` is
missing; transcription, webhook POST, `!n8nResponse.ok` thrown as
"N8N webhook failed: ...", `n8nResponse.json()`, `db.run` insert whose
callback only logs an error, `fs.unlinkSync`, success JSON; the catch
block unlinks the file when it still exists and responds 500. -/
def transcribeHandler (env : ReqEnv) (file : Option (String × String)) : ReqResult :=
  match file with
  | none =>
      ReqResult.mk
        (HttpResponse.mk 400 (RespBody.jsonError "No audio file provided")) [] []
  | some (path, _mimetype) =>
    match env.transcription with
    | Except.error msg =>
        ReqResult.mk (catchResp env.isProduction msg)
          [Event.providerCall path, Event.fileUnlink path] []
    | Except.ok text =>
      let payload := stringify (Json.obj [("transcript", Json.str text)])
      if ¬ env.webhookOk then
        ReqResult.mk
          (catchResp env.isProduction ("N8N webhook failed: " ++ env.webhookStatusText))
          [Event.providerCall path, Event.webhookCall payload, Event.fileUnlink path] []
      else
        match env.webhookJson with
        | Except.error msg =>
            ReqResult.mk (catchResp env.isProduction msg)
              [Event.providerCall path, Event.webhookCall payload,
               Event.fileUnlink path] []
        | Except.ok data =>
          let row := InsertRow.mk env.nowIso text (stringify data)
          ReqResult.mk
            (HttpResponse.mk 200 (RespBody.success text data))
            [Event.providerCall path, Event.webhookCall payload,
             Event.dbInsert row, Event.fileUnlink path]
            (if env.insertOk then [row] else [])

/-- One whole `POST /api/transcribe` request: the multer stage, then the
route (or the error middleware when multer aborted).  A stored file
contributes its `fileCreate` event in front of the handler's trace. -/
def apiTranscribe (env : ReqEnv) (file : Option IncomingFile) : ReqResult :=
  match multerSingleAudio env.nowMs file with
  | MulterOutcome.noFile => transcribeHandler env none
  | MulterOutcome.rejected msg =>
      ReqResult.mk (errorMiddlewareResp env.isProduction msg) [] []
  | MulterOutcome.stored path mimetype =>
    let r := transcribeHandler env (some (path, mimetype))
    ReqResult.mk r.resp (Event.fileCreate path :: r.events) r.rowsWritten

/-! ### The server: `GET /api/conversations`

`SELECT * FROM conversations ORDER BY timestamp DESC` over the whole
table, the rows sent back as-is (a database error would give a 500, which
the ordering claims do not touch).  The `timestamp` column is TEXT, so
SQLite orders it by string comparison. -/

/-- One persisted ledger row, `id` included. -/
structure DbRow where
  id : Nat
  timestamp : String
  transcript : String
  n8n_response : String
deriving DecidableEq

/-- Descending insertion of one row into a list already ordered by
`timestamp` descending. -/
def insertDescByTimestamp (r : DbRow) : List DbRow → List DbRow
  | [] => [r]
  | x :: xs =>
    if r.timestamp ≤ x.timestamp then x :: insertDescByTimestamp r xs
    else r :: x :: xs

/-- `ORDER BY timestamp DESC` over the whole table: a sort of all rows by
the `timestamp` column, descending. -/
def orderByTimestampDesc (rows : List DbRow) : List DbRow :=
  rows.foldr insertDescByTimestamp []

/-- The `GET /api/conversations` result on a given ledger state: every
row, ordered by timestamp descending, nothing else. -/
def getConversations (ledger : List DbRow) : List DbRow :=
  orderByTimestampDesc ledger

/-- Rows are listed newest first: each precedes only rows with a
timestamp no larger than its own. -/
def rowDescOrdered (rows : List DbRow) : Prop :=
  List.Pairwise (fun a b => b.timestamp ≤ a.timestamp) rows


theorem urlEnd_sublist : ∀ l r, urlEnd l = some r → List.Sublist r l := by
  intro l
  induction l using urlEnd.induct with
  | case1 => intro r h; simp [urlEnd] at h
  | case2 rest =>
    intro r h
    simp only [urlEnd] at h
    cases h
    exact List.sublist_cons_self _ _
  | case3 rest hne =>
    intro r h
    simp [urlEnd] at h
  | case4 c rest hne hn ih =>
    intro r h
    rw [urlEnd.eq_3 c rest hne, if_neg hn] at h
    exact (ih r h).cons c

theorem matchLinkTail_spec :
    ∀ fuel l t r, matchLinkTail fuel l = some (t, r) →
      (∀ c, c ∈ t → c ∈ l) ∧ List.Sublist r l := by
  intro fuel l
  induction fuel, l using matchLinkTail.induct with
  | case1 x => intro t r h; simp [matchLinkTail] at h
  | case2 n => intro t r h; simp [matchLinkTail] at h
  | case3 fuel rest r2 hu =>
    intro t r h
    simp only [matchLinkTail, hu] at h
    cases h
    refine ⟨by simp, ?_⟩
    exact ((urlEnd_sublist rest r2 hu).cons '(').cons ']'
  | case4 fuel rest hu ih =>
    intro t r h
    simp only [matchLinkTail, hu] at h
    rcases Option.map_eq_some'.mp h with ⟨⟨t', r'⟩, hm, he⟩
    cases he
    rcases ih t' r' hm with ⟨hmem, hsub⟩
    constructor
    · intro c hc
      rcases List.mem_cons.mp hc with h1 | h1
      · simp [h1]
      · rcases List.mem_cons.mp (hmem c h1) with h2 | h2
        · simp [h2]
        · simp [List.mem_cons, h2]
    · exact hsub.cons ']'
  | case5 fuel rest hne =>
    intro t r h
    simp [matchLinkTail] at h
  | case6 fuel c rest hne hn ih =>
    intro t r h
    rw [matchLinkTail.eq_4 fuel c rest hne, if_neg hn] at h
    rcases Option.map_eq_some'.mp h with ⟨⟨t', r'⟩, hm, he⟩
    cases he
    rcases ih t' r' hm with ⟨hmem, hsub⟩
    constructor
    · intro d hd
      rcases List.mem_cons.mp hd with h1 | h1
      · simp [h1]
      · simp [List.mem_cons, hmem d h1]
    · exact hsub.cons c

theorem replaceLinksF_subset :
    ∀ fuel l c, c ∈ replaceLinksF fuel l → c ∈ l := by
  intro fuel l
  induction fuel, l using replaceLinksF.induct with
  | case1 l => intro c h; simpa [replaceLinksF] using h
  | case2 n => intro c h; simp [replaceLinksF] at h
  | case3 fuel rest t r hm ih =>
    intro c h
    simp only [replaceLinksF, hm] at h
    rcases List.mem_append.mp h with h1 | h1
    · exact List.mem_cons_of_mem _ ((matchLinkTail_spec _ rest t r hm).1 c h1)
    · exact List.mem_cons_of_mem _ ((matchLinkTail_spec _ rest t r hm).2.mem (ih c h1))
  | case4 fuel rest hm ih =>
    intro c h
    simp only [replaceLinksF, hm] at h
    rcases List.mem_cons.mp h with h1 | h1
    · simp [h1]
    · exact List.mem_cons_of_mem _ (ih c h1)
  | case5 fuel d rest hne ih =>
    intro c h
    rw [replaceLinksF.eq_4 fuel d rest hne] at h
    rcases List.mem_cons.mp h with h1 | h1
    · simp [h1]
    · exact List.mem_cons_of_mem _ (ih c h1)



theorem replaceImagesF_subset :
    ∀ fuel l c, c ∈ replaceImagesF fuel l → c ∈ l := by
  intro fuel l
  induction fuel, l using replaceImagesF.induct with
  | case1 l => intro c h; simpa [replaceImagesF] using h
  | case2 n => intro c h; simp [replaceImagesF] at h
  | case3 fuel rest t r hm ih =>
    intro c h
    simp only [replaceImagesF, hm] at h
    rcases List.mem_append.mp h with h1 | h1
    · exact List.mem_cons_of_mem _ (List.mem_cons_of_mem _
        ((matchLinkTail_spec _ rest t r hm).1 c h1))
    · exact List.mem_cons_of_mem _ (List.mem_cons_of_mem _
        ((matchLinkTail_spec _ rest t r hm).2.mem (ih c h1)))
  | case4 fuel rest hm ih =>
    intro c h
    simp only [replaceImagesF, hm] at h
    rcases List.mem_cons.mp h with h1 | h1
    · simp [h1]
    · exact List.mem_cons_of_mem _ (ih c h1)
  | case5 fuel d rest hne ih =>
    intro c h
    rw [replaceImagesF.eq_4 fuel d rest hne] at h
    rcases List.mem_cons.mp h with h1 | h1
    · simp [h1]
    · exact List.mem_cons_of_mem _ (ih c h1)

theorem replaceEscN_mem : ∀ l c, c ∈ replaceEscN l → c ∈ l ∨ c = '\n' := by
  intro l
  induction l using replaceEscN.induct with
  | case1 rest ih =>
    intro c h
    simp only [replaceEscN] at h
    rcases List.mem_cons.mp h with h1 | h1
    · right; exact h1
    · rcases ih c h1 with h2 | h2
      · left; simp [List.mem_cons, h2]
      · right; exact h2
  | case2 d rest hne ih =>
    intro c h
    rw [replaceEscN.eq_2 d rest hne] at h
    rcases List.mem_cons.mp h with h1 | h1
    · left; simp [h1]
    · rcases ih c h1 with h2 | h2
      · left; simp [List.mem_cons, h2]
      · right; exact h2
  | case3 => intro c h; simp [replaceEscN] at h

theorem removeEscR_mem : ∀ l c, c ∈ removeEscR l → c ∈ l := by
  intro l
  induction l using removeEscR.induct with
  | case1 rest ih =>
    intro c h
    simp only [removeEscR] at h
    simp [List.mem_cons, ih c h]
  | case2 d rest hne ih =>
    intro c h
    rw [removeEscR.eq_2 d rest hne] at h
    rcases List.mem_cons.mp h with h1 | h1
    · simp [h1]
    · exact List.mem_cons_of_mem _ (ih c h1)
  | case3 => intro c h; simp [removeEscR] at h

theorem trimList_mem (l : List Char) (c : Char) (h : c ∈ trimList l) : c ∈ l := by
  unfold trimList at h
  rw [List.mem_reverse] at h
  have h2 := (List.dropWhile_sublist isJsTrimWs).mem h
  rw [List.mem_reverse] at h2
  exact (List.dropWhile_sublist isJsTrimWs).mem h2

/-- After `stripMarkdown`, no character of the stripped class remains
anywhere in the result: the first stage removes them all and no later
stage can reintroduce one. -/
theorem stripMarkdown_no_markers (s : String) (c : Char)
    (hc : c ∈ markdownMarkers) : c ∉ (stripMarkdown s).data := by
  intro h
  unfold stripMarkdown at h
  simp only [String.data] at h
  have h1 := trimList_mem _ _ h
  have h2 := removeEscR_mem _ _ h1
  rcases replaceEscN_mem _ _ h2 with h3 | h3
  · have h4 := replaceImagesF_subset _ _ _ h3
    have h5 := replaceLinksF_subset _ _ _ h4
    rw [removeMarkers, List.mem_filter] at h5
    have hcon : markdownMarkers.contains c = true := List.elem_eq_true_of_mem hc
    simp [hcon] at h5
    exact h5.2 hc
  · subst h3
    simp [markdownMarkers] at hc



theorem insertDescByTimestamp_perm (r : DbRow) (l : List DbRow) :
    List.Perm (insertDescByTimestamp r l) (r :: l) := by
  induction l with
  | nil => simp [insertDescByTimestamp]
  | cons x xs ih =>
    by_cases h : r.timestamp ≤ x.timestamp
    · rw [insertDescByTimestamp, if_pos h]
      exact (ih.cons x).trans (List.Perm.swap r x xs)
    · rw [insertDescByTimestamp, if_neg h]

theorem orderByTimestampDesc_perm (rows : List DbRow) :
    List.Perm (orderByTimestampDesc rows) rows := by
  induction rows with
  | nil => rfl
  | cons r rs ih =>
    rw [orderByTimestampDesc, List.foldr_cons]
    exact (insertDescByTimestamp_perm r _).trans (ih.cons r)

theorem insertDescByTimestamp_sorted (r : DbRow) (l : List DbRow)
    (h : rowDescOrdered l) : rowDescOrdered (insertDescByTimestamp r l) := by
  induction l with
  | nil => simp [insertDescByTimestamp, rowDescOrdered]
  | cons x xs ih =>
    rcases List.pairwise_cons.mp h with ⟨hx, hxs⟩
    by_cases hc : r.timestamp ≤ x.timestamp
    · rw [insertDescByTimestamp, if_pos hc]
      refine List.pairwise_cons.mpr ⟨?_, ih hxs⟩
      intro b hb
      rcases List.mem_cons.mp ((insertDescByTimestamp_perm r xs).mem_iff.mp hb) with h1 | h1
      · exact h1 ▸ hc
      · exact hx b h1
    · rw [insertDescByTimestamp, if_neg hc]
      refine List.pairwise_cons.mpr ⟨?_, h⟩
      intro b hb
      have hxr : x.timestamp ≤ r.timestamp := le_of_not_le hc
      rcases List.mem_cons.mp hb with h1 | h1
      · exact h1 ▸ hxr
      · exact le_trans (hx b h1) hxr

theorem orderByTimestampDesc_sorted (rows : List DbRow) :
    rowDescOrdered (orderByTimestampDesc rows) := by
  induction rows with
  | nil => exact List.Pairwise.nil
  | cons r rs ih =>
    rw [orderByTimestampDesc, List.foldr_cons]
    exact insertDescByTimestamp_sorted r _ ih

theorem orderByTimestampDesc_triple (r1 r2 r3 : DbRow)
    (h12 : r1.timestamp < r2.timestamp) (h23 : r2.timestamp < r3.timestamp) :
    orderByTimestampDesc [r1, r2, r3] = [r3, r2, r1] := by
  have h13 : r1.timestamp < r3.timestamp := lt_trans h12 h23
  rw [orderByTimestampDesc]
  simp only [List.foldr_cons, List.foldr_nil]
  rw [insertDescByTimestamp]
  rw [insertDescByTimestamp, if_pos (le_of_lt h23), insertDescByTimestamp]
  rw [insertDescByTimestamp, if_pos (le_of_lt h13), insertDescByTimestamp,
    if_pos (le_of_lt h12), insertDescByTimestamp]


theorem transcribeHandler_none (env : ReqEnv) :
    transcribeHandler env none
      = ReqResult.mk
          (HttpResponse.mk 400 (RespBody.jsonError "No audio file provided")) [] [] := rfl

theorem transcribeHandler_tError (env : ReqEnv) (path m msg : String)
    (ht : env.transcription = Except.error msg) :
    transcribeHandler env (some (path, m))
      = ReqResult.mk (catchResp env.isProduction msg)
          [Event.providerCall path, Event.fileUnlink path] [] := by
  rw [transcribeHandler, ht]

theorem transcribeHandler_webhookNotOk (env : ReqEnv) (path m text : String)
    (ht : env.transcription = Except.ok text) (hw : env.webhookOk = false) :
    transcribeHandler env (some (path, m))
      = ReqResult.mk
          (catchResp env.isProduction ("N8N webhook failed: " ++ env.webhookStatusText))
          [Event.providerCall path,
           Event.webhookCall (stringify (Json.obj [("transcript", Json.str text)])),
           Event.fileUnlink path] [] := by
  rw [transcribeHandler, ht]
  simp [hw]

theorem transcribeHandler_jsonError (env : ReqEnv) (path m text msg : String)
    (ht : env.transcription = Except.ok text) (hw : env.webhookOk = true)
    (hj : env.webhookJson = Except.error msg) :
    transcribeHandler env (some (path, m))
      = ReqResult.mk (catchResp env.isProduction msg)
          [Event.providerCall path,
           Event.webhookCall (stringify (Json.obj [("transcript", Json.str text)])),
           Event.fileUnlink path] [] := by
  rw [transcribeHandler, ht]
  simp [hw, hj]

theorem transcribeHandler_ok (env : ReqEnv) (path m text : String) (data : Json)
    (ht : env.transcription = Except.ok text) (hw : env.webhookOk = true)
    (hj : env.webhookJson = Except.ok data) :
    transcribeHandler env (some (path, m))
      = ReqResult.mk (HttpResponse.mk 200 (RespBody.success text data))
          [Event.providerCall path,
           Event.webhookCall (stringify (Json.obj [("transcript", Json.str text)])),
           Event.dbInsert (InsertRow.mk env.nowIso text (stringify data)),
           Event.fileUnlink path]
          (if env.insertOk then [InsertRow.mk env.nowIso text (stringify data)] else []) := by
  rw [transcribeHandler, ht]
  simp [hw, hj]

theorem apiTranscribe_none (env : ReqEnv) :
    apiTranscribe env none = transcribeHandler env none := rfl

theorem apiTranscribe_filtered (env : ReqEnv) (f : IncomingFile)
    (h : fileFilterAccept f.mimetype = false) :
    apiTranscribe env (some f)
      = ReqResult.mk
          (errorMiddlewareResp env.isProduction "Only audio files are allowed!") [] [] := by
  rw [apiTranscribe, multerSingleAudio]
  simp [h]

theorem apiTranscribe_oversize (env : ReqEnv) (f : IncomingFile)
    (h1 : fileFilterAccept f.mimetype = true) (h2 : fileSizeLimit < f.size) :
    apiTranscribe env (some f)
      = ReqResult.mk (errorMiddlewareResp env.isProduction "File too large") [] [] := by
  rw [apiTranscribe, multerSingleAudio]
  simp [h1, h2]

theorem apiTranscribe_stored (env : ReqEnv) (f : IncomingFile)
    (h1 : fileFilterAccept f.mimetype = true) (h2 : ¬ fileSizeLimit < f.size) :
    apiTranscribe env (some f)
      = ReqResult.mk
          (transcribeHandler env
            (some (recordingPath env.nowMs f.originalExt, f.mimetype))).resp
          (Event.fileCreate (recordingPath env.nowMs f.originalExt)
            :: (transcribeHandler env
                  (some (recordingPath env.nowMs f.originalExt, f.mimetype))).events)
          (transcribeHandler env
            (some (recordingPath env.nowMs f.originalExt, f.mimetype))).rowsWritten := by
  rw [apiTranscribe, multerSingleAudio]
  simp [h1, h2]


/-- C1: for every transcribe request that persisted an audio artifact, the
artifact no longer exists when the handler finishes — on the success path
and on every failure path (transcription error, webhook error, unparsable
webhook body); persistence failure does not skip the cleanup either. -/
theorem artifact_cleanup_every_path (env : ReqEnv) (file : Option IncomingFile)
    (p : String)
    (hc : Event.fileCreate p ∈ (apiTranscribe env file).events) :
    Event.fileUnlink p ∈ (apiTranscribe env file).events := by
  rcases file with _ | f
  · rw [apiTranscribe_none, transcribeHandler_none] at hc
    simp at hc
  · by_cases h1 : fileFilterAccept f.mimetype = true
    · by_cases h2 : fileSizeLimit < f.size
      · rw [apiTranscribe_oversize env f h1 h2] at hc
        simp at hc
      · rw [apiTranscribe_stored env f h1 h2] at hc ⊢
        rcases ht : env.transcription with msg | text
        · rw [transcribeHandler_tError env _ _ msg ht] at hc ⊢
          simp at hc ⊢
          simp [hc]
        · rcases hw : env.webhookOk with _ | _
          · rw [transcribeHandler_webhookNotOk env _ _ text ht hw] at hc ⊢
            simp at hc ⊢
            simp [hc]
          · rcases hj : env.webhookJson with msg | data
            · rw [transcribeHandler_jsonError env _ _ text msg ht hw hj] at hc ⊢
              simp at hc ⊢
              simp [hc]
            · rw [transcribeHandler_ok env _ _ text data ht hw hj] at hc ⊢
              simp at hc ⊢
              simp [hc]
    · rw [apiTranscribe_filtered env f (Bool.not_eq_true _ ▸ h1)] at hc
      simp at hc

/-- A concrete environment for witnesses: development mode, transcription
returns "hello world", the webhook is ok and answers
`{"output":"done"}`, the insert succeeds. -/
def envOk : ReqEnv :=
  ReqEnv.mk 1700000000000 "2024-01-01T00:00:00.000Z" false
    (Except.ok "hello world") true "OK"
    (Except.ok (Json.obj [("output", Json.str "done")])) true

/-- A concrete accepted upload: 1 KiB of `audio/webm`. -/
def fileOk : IncomingFile := IncomingFile.mk ".webm" "audio/webm" 1024

theorem artifact_cleanup_every_path_witness :
    Event.fileUnlink "uploads/recording-1700000000000.webm"
      ∈ (apiTranscribe envOk (some fileOk)).events :=
  artifact_cleanup_every_path envOk (some fileOk)
    "uploads/recording-1700000000000.webm" (by decide)



/-- C2: when the webhook POST happened and answered non-2xx
(`!n8nResponse.ok`), the request fails hard before any JSON parsing or
persistence: a 500 response, no attempted insert, no ledger row, and the
artifact (always created on this path) is deleted. -/
theorem webhook_non2xx_hard_failure (env : ReqEnv) (file : Option IncomingFile)
    (hw : env.webhookOk = false)
    (hcall : ∃ pl, Event.webhookCall pl ∈ (apiTranscribe env file).events) :
    (apiTranscribe env file).resp.status = 500
    ∧ (apiTranscribe env file).rowsWritten = []
    ∧ (∀ r, Event.dbInsert r ∉ (apiTranscribe env file).events)
    ∧ (∀ p, Event.fileCreate p ∈ (apiTranscribe env file).events →
        Event.fileUnlink p ∈ (apiTranscribe env file).events) := by
  rcases hcall with ⟨pl, hpl⟩
  rcases file with _ | f
  · rw [apiTranscribe_none, transcribeHandler_none] at hpl
    simp at hpl
  · by_cases h1 : fileFilterAccept f.mimetype = true
    · by_cases h2 : fileSizeLimit < f.size
      · rw [apiTranscribe_oversize env f h1 h2] at hpl
        simp at hpl
      · rcases ht : env.transcription with msg | text
        · rw [apiTranscribe_stored env f h1 h2,
            transcribeHandler_tError env _ _ msg ht] at hpl
          simp at hpl
        · rw [apiTranscribe_stored env f h1 h2,
            transcribeHandler_webhookNotOk env _ _ text ht hw]
          refine ⟨by simp [catchResp], rfl, by simp, ?_⟩
          intro p hp
          simp at hp ⊢
          simp [hp]
    · rw [apiTranscribe_filtered env f (Bool.not_eq_true _ ▸ h1)] at hpl
      simp at hpl

/-- Like `envOk` but the webhook answers non-2xx (`ok` false, status text
"Bad Gateway"); reading its body would also fail. -/
def envWebhookFail : ReqEnv :=
  ReqEnv.mk 1700000000000 "2024-01-01T00:00:00.000Z" false
    (Except.ok "hello world") false "Bad Gateway"
    (Except.error "invalid json response body") true

theorem webhook_non2xx_hard_failure_witness :
    (apiTranscribe envWebhookFail (some fileOk)).resp.status = 500
    ∧ (apiTranscribe envWebhookFail (some fileOk)).rowsWritten = []
    ∧ (∀ r, Event.dbInsert r ∉ (apiTranscribe envWebhookFail (some fileOk)).events)
    ∧ (∀ p, Event.fileCreate p ∈ (apiTranscribe envWebhookFail (some fileOk)).events →
        Event.fileUnlink p ∈ (apiTranscribe envWebhookFail (some fileOk)).events) :=
  webhook_non2xx_hard_failure envWebhookFail (some fileOk) rfl
    ⟨stringify (Json.obj [("transcript", Json.str "hello world")]), by decide⟩

/-- C3: when transcription and webhook both succeed, the client-visible
response does not depend on whether the ledger insert succeeds: two
environments differing at most in the insert outcome produce the same
response, namely 200 with `{ transcript, n8nResponse }`. -/
theorem insert_failure_invisible (e1 e2 : ReqEnv) (f : IncomingFile)
    (text : String) (data : Json)
    (hms : e1.nowMs = e2.nowMs) (hiso : e1.nowIso = e2.nowIso)
    (hprod : e1.isProduction = e2.isProduction)
    (htr : e1.transcription = e2.transcription)
    (hok : e1.webhookOk = e2.webhookOk)
    (hst : e1.webhookStatusText = e2.webhookStatusText)
    (hjs : e1.webhookJson = e2.webhookJson)
    (ht : e1.transcription = Except.ok text) (hw : e1.webhookOk = true)
    (hj : e1.webhookJson = Except.ok data)
    (h1 : fileFilterAccept f.mimetype = true) (h2 : ¬ fileSizeLimit < f.size) :
    (apiTranscribe e1 (some f)).resp = (apiTranscribe e2 (some f)).resp
    ∧ (apiTranscribe e1 (some f)).resp
        = HttpResponse.mk 200 (RespBody.success text data) := by
  rw [apiTranscribe_stored e1 f h1 h2, apiTranscribe_stored e2 f h1 h2,
    transcribeHandler_ok e1 _ _ text data ht hw hj,
    transcribeHandler_ok e2 _ _ text data (htr ▸ ht) (hok ▸ hw) (hjs ▸ hj)]
  simp

/-- Like `envOk` but the ledger insert fails (only the callback logs it). -/
def envInsertFail : ReqEnv :=
  ReqEnv.mk 1700000000000 "2024-01-01T00:00:00.000Z" false
    (Except.ok "hello world") true "OK"
    (Except.ok (Json.obj [("output", Json.str "done")])) false

theorem insert_failure_invisible_witness :
    (apiTranscribe envInsertFail (some fileOk)).resp
        = (apiTranscribe envOk (some fileOk)).resp
    ∧ (apiTranscribe envInsertFail (some fileOk)).resp
        = HttpResponse.mk 200
            (RespBody.success "hello world" (Json.obj [("output", Json.str "done")])) :=
  insert_failure_invisible envInsertFail envOk fileOk "hello world"
    (Json.obj [("output", Json.str "done")])
    rfl rfl rfl rfl rfl rfl rfl rfl rfl rfl (by decide) (by decide)

/-- C4: a multipart body with no `audio` file field is answered 400 with
"No audio file provided", with no side effects at all: no artifact file,
no provider call, no webhook call, no attempted or written ledger row. -/
theorem no_audio_field_rejected (env : ReqEnv) :
    apiTranscribe env none
      = ReqResult.mk
          (HttpResponse.mk 400 (RespBody.jsonError "No audio file provided"))
          [] [] := rfl

/-- C8: an upload over the 10 MiB limit never reaches the transcription
provider: the request is rejected with zero provider calls, zero webhook
calls, zero attempted inserts and zero ledger rows. -/
theorem oversize_rejected_before_provider (env : ReqEnv) (f : IncomingFile)
    (h2 : fileSizeLimit < f.size) :
    (∀ p, Event.providerCall p ∉ (apiTranscribe env (some f)).events)
    ∧ (∀ pl, Event.webhookCall pl ∉ (apiTranscribe env (some f)).events)
    ∧ (∀ r, Event.dbInsert r ∉ (apiTranscribe env (some f)).events)
    ∧ (apiTranscribe env (some f)).rowsWritten = [] := by
  by_cases h1 : fileFilterAccept f.mimetype = true
  · rw [apiTranscribe_oversize env f h1 h2]
    simp
  · rw [apiTranscribe_filtered env f (Bool.not_eq_true _ ▸ h1)]
    simp

/-- An upload one byte over the 10 MiB limit. -/
def fileTooBig : IncomingFile :=
  IncomingFile.mk ".webm" "audio/webm" (10 * 1024 * 1024 + 1)

theorem oversize_rejected_before_provider_witness :
    (∀ p, Event.providerCall p ∉ (apiTranscribe envOk (some fileTooBig)).events)
    ∧ (∀ pl, Event.webhookCall pl ∉ (apiTranscribe envOk (some fileTooBig)).events)
    ∧ (∀ r, Event.dbInsert r ∉ (apiTranscribe envOk (some fileTooBig)).events)
    ∧ (apiTranscribe envOk (some fileTooBig)).rowsWritten = [] :=
  oversize_rejected_before_provider envOk fileTooBig (by decide)

/-- C9: a webhook answer that is 2xx but whose body is not valid JSON is a
hard failure — `n8nResponse.json()` throws — so the request ends 500, no
insert is attempted, no ledger row is written, and the artifact is still
deleted. -/
theorem webhook_2xx_unparsable_hard_failure (env : ReqEnv)
    (file : Option IncomingFile) (msg : String)
    (hok : env.webhookOk = true) (hj : env.webhookJson = Except.error msg)
    (hcall : ∃ pl, Event.webhookCall pl ∈ (apiTranscribe env file).events) :
    (apiTranscribe env file).resp.status = 500
    ∧ (apiTranscribe env file).rowsWritten = []
    ∧ (∀ r, Event.dbInsert r ∉ (apiTranscribe env file).events)
    ∧ (∀ p, Event.fileCreate p ∈ (apiTranscribe env file).events →
        Event.fileUnlink p ∈ (apiTranscribe env file).events) := by
  rcases hcall with ⟨pl, hpl⟩
  rcases file with _ | f
  · rw [apiTranscribe_none, transcribeHandler_none] at hpl
    simp at hpl
  · by_cases h1 : fileFilterAccept f.mimetype = true
    · by_cases h2 : fileSizeLimit < f.size
      · rw [apiTranscribe_oversize env f h1 h2] at hpl
        simp at hpl
      · rcases ht : env.transcription with msg2 | text
        · rw [apiTranscribe_stored env f h1 h2,
            transcribeHandler_tError env _ _ msg2 ht] at hpl
          simp at hpl
        · rw [apiTranscribe_stored env f h1 h2,
            transcribeHandler_jsonError env _ _ text msg ht hok hj]
          refine ⟨by simp [catchResp], rfl, by simp, ?_⟩
          intro p hp
          simp at hp ⊢
          simp [hp]
    · rw [apiTranscribe_filtered env f (Bool.not_eq_true _ ▸ h1)] at hpl
      simp at hpl

/-- Like `envOk` but the webhook's 2xx body is not valid JSON. -/
def envBadJsonBody : ReqEnv :=
  ReqEnv.mk 1700000000000 "2024-01-01T00:00:00.000Z" false
    (Except.ok "hello world") true "OK"
    (Except.error "invalid json response body") true

theorem webhook_2xx_unparsable_hard_failure_witness :
    (apiTranscribe envBadJsonBody (some fileOk)).resp.status = 500
    ∧ (apiTranscribe envBadJsonBody (some fileOk)).rowsWritten = []
    ∧ (∀ r, Event.dbInsert r ∉ (apiTranscribe envBadJsonBody (some fileOk)).events)
    ∧ (∀ p, Event.fileCreate p ∈ (apiTranscribe envBadJsonBody (some fileOk)).events →
        Event.fileUnlink p ∈ (apiTranscribe envBadJsonBody (some fileOk)).events) :=
  webhook_2xx_unparsable_hard_failure envBadJsonBody (some fileOk)
    "invalid json response body" rfl rfl
    ⟨stringify (Json.obj [("transcript", Json.str "hello world")]), by decide⟩


/-- C5: `GET /api/conversations` returns the whole ledger — every row,
nothing filtered, no pagination (a permutation of the table) — ordered by
the timestamp column descending; in particular three rows inserted with
timestamps t1 < t2 < t3 come back as [t3, t2, t1]. -/
theorem conversations_all_rows_desc :
    (∀ ledger : List DbRow,
        List.Perm (getConversations ledger) ledger
        ∧ rowDescOrdered (getConversations ledger))
    ∧ (∀ r1 r2 r3 : DbRow,
        r1.timestamp < r2.timestamp → r2.timestamp < r3.timestamp →
        getConversations [r1, r2, r3] = [r3, r2, r1]) :=
  ⟨fun ledger =>
    ⟨orderByTimestampDesc_perm ledger, orderByTimestampDesc_sorted ledger⟩,
   fun r1 r2 r3 h12 h23 => orderByTimestampDesc_triple r1 r2 r3 h12 h23⟩

/-- Three concrete ledger rows with increasing insert timestamps. -/
def rowT1 : DbRow := DbRow.mk 1 "2024-01-01T00:00:00.000Z" "first" "\"a\""

/-- Second concrete ledger row. -/
def rowT2 : DbRow := DbRow.mk 2 "2024-01-02T00:00:00.000Z" "second" "\"b\""

/-- Third concrete ledger row. -/
def rowT3 : DbRow := DbRow.mk 3 "2024-01-03T00:00:00.000Z" "third" "\"c\""

theorem conversations_all_rows_desc_witness :
    getConversations [rowT1, rowT2, rowT3] = [rowT3, rowT2, rowT1] :=
  conversations_all_rows_desc.2 rowT1 rowT2 rowT3
    (by rw [String.lt_iff_toList_lt]; decide)
    (by rw [String.lt_iff_toList_lt]; decide)

/-- C6: the history display transform: (1) the stored value
`{"output":"**bold** text"}` renders as "bold text"; (2) a stored string
that does not parse as JSON is returned unchanged; (3) the transform never
lets an exception out — every exception of the `try` body is caught and
produces the raw stored string. -/
theorem display_transform_roundtrip :
    n8nDisplay "\x7b\"output\":\"**bold** text\"\x7d" = "bold text"
    ∧ (∀ s, jsonParse s = none → n8nDisplay s = s)
    ∧ (∀ s e, renderN8nTextE s = Except.error e → n8nDisplay s = s) := by
  refine ⟨by decide, ?_, ?_⟩
  · intro s h
    simp [n8nDisplay, renderN8nTextE, h]
  · intro s e h
    simp [n8nDisplay, h]

theorem display_transform_roundtrip_witness :
    jsonParse "not json" = none ∧ n8nDisplay "not json" = "not json" :=
  ⟨rfl, display_transform_roundtrip.2.1 "not json" rfl⟩

/-- C10: the first `replace` of `stripMarkdown` deletes every occurrence
of `* _ ~ \x60 > # -` anywhere in the text, markers or not: no such
character survives to the rendered output, and a stored output containing
a hyphenated word renders with the hyphen deleted, differing from the
stored content. -/
theorem strip_markdown_deletes_everywhere :
    (∀ s c, c ∈ markdownMarkers → c ∉ (stripMarkdown s).data)
    ∧ n8nDisplay "\x7b\"output\":\"well-known plan\"\x7d" = "wellknown plan"
    ∧ ("wellknown plan" : String) ≠ "well-known plan" :=
  ⟨fun s c hc => stripMarkdown_no_markers s c hc, by decide, by decide⟩

theorem strip_markdown_deletes_everywhere_witness :
    '-' ∈ markdownMarkers ∧ '-' ∉ (stripMarkdown "well-known").data :=
  ⟨by decide, strip_markdown_deletes_everywhere.1 "well-known" '-' (by decide)⟩



/-- The spec's intake acceptance predicate, stated from the spec's words:
the declared MIME type "must start with an audio category, or belong to an
explicit allow-list {wav, mpeg, mp4, webm}", reading the allow-list as the
four audio MIME types it names.  To be compared with the source's
`fileFilterAccept`. -/
def specMimeAccept (m : String) : Bool :=
  "audio/".data.isPrefixOf m.data
    || ["audio/wav", "audio/mpeg", "audio/mp4", "audio/webm"].contains m

/-- C7 counterexample: a disallowed MIME type (`text/plain`) is rejected,
but not by persist-then-delete: the request produces no filesystem event
at all — in particular the artifact is never persisted, so the claimed
persist-then-immediately-delete sequence does not happen. -/
theorem mime_reject_persist_then_delete_counterexample :
    (apiTranscribe envOk (some (IncomingFile.mk ".txt" "text/plain" 512))).resp.status
        = 500
    ∧ (apiTranscribe envOk (some (IncomingFile.mk ".txt" "text/plain" 512))).events = []
    ∧ ¬ ∃ p, Event.fileCreate p
          ∈ (apiTranscribe envOk (some (IncomingFile.mk ".txt" "text/plain" 512))).events := by
  refine ⟨rfl, rfl, ?_⟩
  rintro ⟨p, hp⟩
  have h : (apiTranscribe envOk (some (IncomingFile.mk ".txt" "text/plain" 512))).events
      = [] := rfl
  rw [h] at hp
  simp at hp

/-- C7 amended: intake accepts exactly the MIME types the spec describes —
the spec predicate (audio category or the four allow-listed audio types)
coincides with the source's `audio/`-prefix filter — and a file with a
disallowed MIME type is rejected without the artifact ever being
persisted, so no artifact file exists after the rejection. -/
theorem mime_filter_amended :
    (∀ m, specMimeAccept m = fileFilterAccept m)
    ∧ (∀ env f, fileFilterAccept f.mimetype = false →
        (apiTranscribe env (some f)).resp.status = 500
        ∧ (apiTranscribe env (some f)).events = []
        ∧ ∀ p, Event.fileCreate p ∉ (apiTranscribe env (some f)).events) := by
  constructor
  · intro m
    rw [specMimeAccept, fileFilterAccept]
    by_cases h : "audio/".data.isPrefixOf m.data = true
    · simp [h]
    · have hb : "audio/".data.isPrefixOf m.data = false := Bool.not_eq_true _ ▸ h
      rw [hb]
      simp only [Bool.false_or]
      rw [Bool.eq_false_iff]
      intro hcon
      have hm : m ∈ ["audio/wav", "audio/mpeg", "audio/mp4", "audio/webm"] :=
        List.mem_of_elem_eq_true hcon
      fin_cases hm
      · exact absurd hb (by decide)
      · exact absurd hb (by decide)
      · exact absurd hb (by decide)
      · exact absurd hb (by decide)
  · intro env f hf
    rw [apiTranscribe_filtered env f hf]
    exact ⟨rfl, rfl, by simp⟩

theorem mime_filter_amended_witness :
    (apiTranscribe envOk (some (IncomingFile.mk ".mp4" "video/mp4" 2048))).resp.status
        = 500
    ∧ (apiTranscribe envOk (some (IncomingFile.mk ".mp4" "video/mp4" 2048))).events = []
    ∧ ∀ p, Event.fileCreate p
        ∉ (apiTranscribe envOk (some (IncomingFile.mk ".mp4" "video/mp4" 2048))).events :=
  mime_filter_amended.2 envOk (IncomingFile.mk ".mp4" "video/mp4" 2048) (by decide)


end VoiceNotes
